import Mathlib

/-!
Shallow embedding of the `rusty-brain` computational-graph engine
(`src/node.rs`, `src/network.rs`).

Modelling conventions:
* `f64` is modelled as `ℚ` (exact arithmetic; the claims under study are
  exact-value claims).
* Every node lives behind an `Arc<Mutex<_>>` and is additionally reachable
  through the global `NODES` registry, so all holders of a reference observe
  the same state.  We therefore model the whole shared heap as one
  association list `Graph : List (String × NodeData)` from node name to node
  record, and model cross-node references (`AM<Node + Send>`) by node name,
  resolved through that map.
* A Rust `panic!` / `unimplemented!` / `.expect(...)` is modelled by
  returning `none` (for pure panics) or by a `Bool` flag alongside the state
  reached so far, when the claim under study is about the state left behind
  by a panicking operation.
* `HashMap::insert` is modelled by `insertAssoc` (replace the binding if the
  key is present, append otherwise); `Vec::push` by list append.
* `thread_rng().gen_range(-1.0, 1.0)` is modelled by an explicit `ℚ`
  parameter standing for the drawn random value.
-/

/-- `TrainingState` (node.rs:209-216): per-node training bookkeeping. -/
structure TrainingState where
  /-- The value of `DerivativeCalculationParams.calc_derivative_iteration`
  when `calc_activation_derivative` was last called (node.rs:212). -/
  calc_derivative_iteration : Int
  /-- The last value of d(loss)/d(this activation) (node.rs:215). -/
  dloss : ℚ
deriving DecidableEq, Repr

/-- `Default for TrainingState` (node.rs:218-225). -/
def TrainingState.default : TrainingState :=
  { calc_derivative_iteration := -1, dloss := 0 }

/-- The four node variants of node.rs (`InputNode`, `ConstantNode`,
`SumNode`, `SigmoidNode`) with their variant-specific payload. -/
inductive NodeKind where
  /-- `InputNode` (node.rs:227-234) with its `value` field. -/
  | inputNode (value : ℚ)
  /-- `ConstantNode` (node.rs:308-315) with its `const_value` field. -/
  | constantNode (const_value : ℚ)
  /-- `SumNode` (node.rs:403-412). -/
  | sumNode
  /-- `SigmoidNode` (node.rs:543-552). -/
  | sigmoidNode
deriving DecidableEq, Repr

/-- One node record.  `inputs` models `HashMap<String, NodeWeight>`
(producer name ↦ edge weight; the `NodeWeight.node` reference is resolved by
name through the graph); `outputs` models `Vec<AM<Node + Send>>` as a list of
node names; `activation` models the cached-activation field of
`SumNode`/`SigmoidNode` (Input/Constant nodes have no such field and never
read it). -/
structure NodeData where
  kind : NodeKind
  inputs : List (String × ℚ)
  outputs : List String
  activation : ℚ
  training_state : TrainingState
deriving DecidableEq, Repr

/-- The shared heap of nodes, which doubles as the global `NODES` registry
(node.rs:12-15): every constructed node is registered there by name. -/
abbrev Graph := List (String × NodeData)

/-- Association-list lookup, modelling `HashMap::get`. -/
def lookupAssoc {α : Type} (m : List (String × α)) (k : String) : Option α :=
  match m with
  | [] => none
  | (k', v) :: rest => if k' = k then some v else lookupAssoc rest k

/-- Association-list insert, modelling `HashMap::insert`: replace the
binding when the key is present, append otherwise. -/
def insertAssoc {α : Type} (m : List (String × α)) (k : String) (v : α) :
    List (String × α) :=
  match m with
  | [] => [(k, v)]
  | (k', v') :: rest =>
      if k' = k then (k, v) :: rest else (k', v') :: insertAssoc rest k v

/-- Resolve a node reference by name. -/
def lookupNode (g : Graph) (name : String) : Option NodeData :=
  lookupAssoc g name

/-- Write back the state of one node (mutation through a shared reference). -/
def setNode (g : Graph) (name : String) (d : NodeData) : Graph :=
  insertAssoc g name d

/-- `register_node` (node.rs:17-22): `NODES.insert` runs first and replaces
any previous binding; the duplicate-name `panic!` fires only afterwards,
when the insert returned a previous value.  Returns the post-insert registry
together with whether the panic fired. -/
def register_node (name : String) (node : NodeData) (nodes : Graph) :
    Graph × Bool :=
  let previous := lookupAssoc nodes name
  let inserted := insertAssoc nodes name node
  (inserted, previous.isSome)

/-- `InputNode::new` (node.rs:237-252): build the record and register it.
The `activation` field is unused padding for Input nodes. -/
def InputNode.new (name : String) (value : ℚ) (nodes : Graph) :
    Graph × Bool :=
  register_node name
    { kind := .inputNode value, inputs := [], outputs := [],
      activation := 0, training_state := TrainingState.default } nodes

/-- `ConstantNode::new` (node.rs:317-331). -/
def ConstantNode.new (name : String) (const_value : ℚ) (nodes : Graph) :
    Graph × Bool :=
  register_node name
    { kind := .constantNode const_value, inputs := [], outputs := [],
      activation := 0, training_state := TrainingState.default } nodes

/-- `SumNode::new` (node.rs:414-429): `activation` starts at `0.0`. -/
def SumNode.new (name : String) (nodes : Graph) : Graph × Bool :=
  register_node name
    { kind := .sumNode, inputs := [], outputs := [],
      activation := 0, training_state := TrainingState.default } nodes

/-- `get_last_calc_activation`, dispatched over the four variants
(node.rs:264-266, 343-345, 449-451, 573-575): Input/Constant return their
stored value, Sum/Sigmoid return the cached `activation` field. -/
def get_last_calc_activation (d : NodeData) : ℚ :=
  match d.kind with
  | .inputNode v => v
  | .constantNode v => v
  | .sumNode => d.activation
  | .sigmoidNode => d.activation

/-- `add_output_node` (node.rs:300-302, 379-381, 536-538, 631-633): every
variant pushes onto its `outputs` vector unconditionally. -/
def add_output_node (name : String) (out : String) (g : Graph) : Graph :=
  match lookupNode g name with
  | none => g
  | some d => setNode g name { d with outputs := d.outputs ++ [out] }

/-- `add_input_node_init`, dispatched over the variants: Input/Constant
panic (node.rs:296-298, 375-377), Sum/Sigmoid insert the producer into
their `inputs` map under the producer's name (node.rs:530-534, 625-629).
`none` models the panic (or a dangling reference, impossible in the
source). -/
def add_input_node_init (name : String) (input : String) (weight : ℚ)
    (g : Graph) : Option Graph :=
  match lookupNode g name with
  | none => none
  | some d =>
    match d.kind with
    | .inputNode _ => none
    | .constantNode _ => none
    | .sumNode =>
        some (setNode g name { d with inputs := insertAssoc d.inputs input weight })
    | .sigmoidNode =>
        some (setNode g name { d with inputs := insertAssoc d.inputs input weight })

/-- `add_input_node` (node.rs:292-294, 371-373, 526-528, 621-623):
Input/Constant panic; Sum/Sigmoid delegate to `add_input_node_init` with a
freshly drawn random weight, modelled by the explicit `rng_w` parameter. -/
def add_input_node (rng_w : ℚ) (name : String) (input : String) (g : Graph) :
    Option Graph :=
  match lookupNode g name with
  | none => none
  | some d =>
    match d.kind with
    | .inputNode _ => none
    | .constantNode _ => none
    | .sumNode => add_input_node_init name input rng_w g
    | .sigmoidNode => add_input_node_init name input rng_w g

/-- `connect` (node.rs:197-200): first `a.add_output_node(b)` (always
succeeds), then `b.add_input_node(a)` (panics when `b` is Input/Constant).
Returns the state reached together with whether the second step panicked;
on panic the first step's mutation has already happened. -/
def connect (rng_w : ℚ) (a b : String) (g : Graph) : Graph × Bool :=
  let g1 := add_output_node a b g
  match add_input_node rng_w b a g1 with
  | some g2 => (g2, false)
  | none => (g1, true)

/-- `connect_init` (node.rs:203-206): like `connect` with a preset weight. -/
def connect_init (a b : String) (weight : ℚ) (g : Graph) : Graph × Bool :=
  let g1 := add_output_node a b g
  match add_input_node_init b a weight g1 with
  | some g2 => (g2, false)
  | none => (g1, true)

/-- `DerivativeCalculationParams` (node.rs:26-39): the iteration token and
the seed mapping from output-node name to d(loss)/d(activation). -/
structure DerivativeCalculationParams where
  calc_derivative_iteration : Int
  output_nodes_loss_fn_derivative : List (String × ℚ)
deriving DecidableEq, Repr

/-- `calc_derivative_against`, dispatched over the variants:
Input/Constant panic unconditionally (node.rs:276-278, 355-357); Sum
returns the stored edge weight (node.rs:461-468), panicking via `.expect`
when the name is not a wired input; Sigmoid returns `a * (1 - a) * w` with
`a` the cached activation (node.rs:585-601).  `none` models the panics. -/
def calc_derivative_against (d : NodeData) (input_node_name : String) :
    Option ℚ :=
  match d.kind with
  | .inputNode _ => none
  | .constantNode _ => none
  | .sumNode => lookupAssoc d.inputs input_node_name
  | .sigmoidNode =>
      match lookupAssoc d.inputs input_node_name with
      | none => none
      | some w =>
          let a := get_last_calc_activation d
          some (a * (1 - a) * w)

/-- Single fuelled evaluator for `calc_activation` (node.rs:260-262,
339-341, 437-447, 559-571).  The work item is either one node (`Sum.inl`)
or the tail of an `inputs` fold (`Sum.inr`), so that the mutual recursion
between a node and its input list is structural on the fuel.  The fold
accumulates `producer.calc_activation() * weight` left to right, threading
the mutated graph; `expFn` models `f64::exp` for the Sigmoid case.  `none`
models fuel exhaustion (the source recursion is unbounded) or a dangling
reference (impossible in the source). -/
def calc_activation_go (expFn : ℚ → ℚ) :
    Nat → (String ⊕ List (String × ℚ)) → Graph → Option (ℚ × Graph)
  | 0, _, _ => none
  | fuel+1, Sum.inl name, g =>
    match lookupNode g name with
    | none => none
    | some d =>
      match d.kind with
      | .inputNode v => some (v, g)
      | .constantNode v => some (v, g)
      | .sumNode =>
        match calc_activation_go expFn fuel (Sum.inr d.inputs) g with
        | none => none
        | some (sum, g') =>
            some (sum, setNode g' name { d with activation := sum })
      | .sigmoidNode =>
        match calc_activation_go expFn fuel (Sum.inr d.inputs) g with
        | none => none
        | some (sum, g') =>
            let sigmoid_activation := 1 / (1 + expFn (-sum))
            some (sigmoid_activation,
                  setNode g' name { d with activation := sigmoid_activation })
  | _+1, Sum.inr [], g => some (0, g)
  | fuel+1, Sum.inr ((p, w) :: rest), g =>
    match calc_activation_go expFn fuel (Sum.inl p) g with
    | none => none
    | some (a, g1) =>
      match calc_activation_go expFn fuel (Sum.inr rest) g1 with
      | none => none
      | some (s, g2) => some (a * w + s, g2)

/-- `calc_activation` on one node (entry point of the fuelled evaluator). -/
def calc_activation (expFn : ℚ → ℚ) (fuel : Nat) (name : String)
    (g : Graph) : Option (ℚ × Graph) :=
  calc_activation_go expFn fuel (Sum.inl name) g

/-- Fuelled evaluator for the trait-default `calc_activation_derivative`
(node.rs:107-148).  Work items: `Sum.inl name` is one call of the method on
`name`; `Sum.inr (parent, outs)` is the tail of the accumulation loop over
`parent`'s output nodes (node.rs:125-131), each step computing
`o.calc_derivative_against(parent) * o.calc_activation_derivative(params)`
left to right and threading the mutated graph.  The result carries the
return value, the graph, and the list of node names for which the WARNING
branch (node.rs:140-141) fired.  Mirrored mutations: `dloss` is zeroed at
node.rs:117 before the branch; the accumulated sum is stored at
node.rs:133; the seeded value at node.rs:138.  The source never writes
`calc_derivative_iteration`, and neither does this embedding.  `none`
models fuel exhaustion, a dangling reference, or a `calc_derivative_against`
panic. -/
def calcDeriv (params : DerivativeCalculationParams) :
    Nat → (String ⊕ (String × List String)) → Graph →
    Option (ℚ × Graph × List String)
  | 0, _, _ => none
  | fuel+1, Sum.inl name, g =>
    match lookupNode g name with
    | none => none
    | some d =>
      if d.training_state.calc_derivative_iteration
          ≠ params.calc_derivative_iteration then
        let g1 := setNode g name
          { d with training_state := { d.training_state with dloss := 0 } }
        if d.outputs.length ≠ 0 then
          match calcDeriv params fuel (Sum.inr (name, d.outputs)) g1 with
          | none => none
          | some (final_dloss, g2, warns) =>
            some (final_dloss,
                  setNode g2 name
                    { d with training_state :=
                        { d.training_state with dloss := final_dloss } },
                  warns)
        else
          match lookupAssoc params.output_nodes_loss_fn_derivative name with
          | some v =>
            some (v,
                  setNode g1 name
                    { d with training_state :=
                        { d.training_state with dloss := v } },
                  [])
          | none => some (0, g1, [name])
      else
        some (d.training_state.dloss, g, [])
  | _+1, Sum.inr (_, []), g => some (0, g, [])
  | fuel+1, Sum.inr (parent, o :: rest), g =>
    match lookupNode g o with
    | none => none
    | some od =>
      match calc_derivative_against od parent with
      | none => none
      | some w =>
        match calcDeriv params fuel (Sum.inl o) g with
        | none => none
        | some (dl, g1, ws1) =>
          match calcDeriv params fuel (Sum.inr (parent, rest)) g1 with
          | none => none
          | some (s, g2, ws2) => some (w * dl + s, g2, ws1 ++ ws2)

/-- `calc_activation_derivative` on one node (entry point of the fuelled
derivative evaluator). -/
def calc_activation_derivative (params : DerivativeCalculationParams)
    (fuel : Nat) (name : String) (g : Graph) :
    Option (ℚ × Graph × List String) :=
  calcDeriv params fuel (Sum.inl name) g

/-- The first loop of `SumNode::update_weights` (node.rs:495-505) followed
by the write-back loop (node.rs:507-509), fused per entry: for each input
edge `(k, w)` look up the producer, compute
`dloss_dweight = factor * producer.get_last_calc_activation()` (with
`factor = dloss_dactv * dactv_dactv_bar`), and replace the weight by
`w - step_size * dloss_dweight`.  The two source loops read only producer
activations and write only this node's weights, so the fused form computes
the same map.  `none` models a dangling producer reference (impossible in
the source). -/
def updatedInputs (g : Graph) (step_size factor : ℚ) :
    List (String × ℚ) → Option (List (String × ℚ))
  | [] => some []
  | (k, w) :: rest =>
    match lookupNode g k with
    | none => none
    | some p =>
      match updatedInputs g step_size factor rest with
      | none => none
      | some rest' =>
          some ((k, w - step_size * (factor * get_last_calc_activation p)) :: rest')

/-- `update_weights`, dispatched over the variants: Input/Constant inherit
the empty trait default (node.rs:164-166); Sum applies the gradient step
with `dactv_dactv_bar = 1.0` (node.rs:472-510); Sigmoid is
`unimplemented!()` and panics (node.rs:603-605), modelled by `none`. -/
def update_weights (step_size : ℚ) (name : String) (g : Graph) :
    Option Graph :=
  match lookupNode g name with
  | none => none
  | some d =>
    match d.kind with
    | .inputNode _ => some g
    | .constantNode _ => some g
    | .sumNode =>
      let dloss_dactv := d.training_state.dloss
      let dactv_dactv_bar : ℚ := 1
      match updatedInputs g step_size (dloss_dactv * dactv_dactv_bar) d.inputs with
      | none => none
      | some newInputs => some (setNode g name { d with inputs := newInputs })
    | .sigmoidNode => none

/-- `NetworkConfigs` (network.rs:14-18). -/
structure NetworkConfigs where
  learning_rate : ℚ
deriving DecidableEq, Repr

/-- `Network` (network.rs:30-34): the layers hold lists of node references,
modelled by name; the node heap itself is the shared `Graph`. -/
structure Network where
  input_layer_nodes : List String
  output_layer_nodes : List String
  network_configs : NetworkConfigs
deriving DecidableEq, Repr

/-- `Network::update_weights` (network.rs:80-82): the body is empty, so the
call leaves both the network object and the node heap exactly as they
were. -/
def Network.update_weights (net : Network) (g : Graph) : Network × Graph :=
  (net, g)

/-- Weighted total of a list of edges against a parallel list of producer
values: the closed form of "sum over the wired inputs of
`producer.activation() * weight`" when every producer is a source node. -/
def weightedTotal : List (String × ℚ) → List ℚ → ℚ
  | [], _ => 0
  | _, [] => 0
  | (_, w) :: rest, v :: vrest => v * w + weightedTotal rest vrest

/-! Concrete graphs used to instantiate the claims.  Each record is written
out literally so that evaluation is pure structural reduction. -/

/-- A sum node `P` feeding `Q` (for the memoization claim). -/
def dP1 : NodeData :=
  { kind := .sumNode, inputs := [], outputs := ["Q"],
    activation := 0, training_state := TrainingState.default }

/-- A terminal sum node `Q` with input edge `P` at weight 2 and no seeded
loss derivative. -/
def dQ1 : NodeData :=
  { kind := .sumNode, inputs := [("P", 2)], outputs := [],
    activation := 0, training_state := TrainingState.default }

/-- Two-node chain `P → Q` with `Q` terminal and unseeded. -/
def gC1 : Graph := [("P", dP1), ("Q", dQ1)]

/-- Backward-pass parameters with iteration token 0 and an empty seed. -/
def pC1 : DerivativeCalculationParams :=
  { calc_derivative_iteration := 0, output_nodes_loss_fn_derivative := [] }

/-- Diamond DAG: `A` feeds `B` and `C`, both feed terminal `D`; edge
weights A→B=2, A→C=3, B→D=1, C→D=1. -/
def gC2 : Graph :=
  [("A", { kind := .sumNode, inputs := [], outputs := ["B", "C"],
           activation := 0, training_state := TrainingState.default }),
   ("B", { kind := .sumNode, inputs := [("A", 2)], outputs := ["D"],
           activation := 0, training_state := TrainingState.default }),
   ("C", { kind := .sumNode, inputs := [("A", 3)], outputs := ["D"],
           activation := 0, training_state := TrainingState.default }),
   ("D", { kind := .sumNode, inputs := [("B", 1), ("C", 1)], outputs := [],
           activation := 0, training_state := TrainingState.default })]

/-- Backward-pass parameters for the diamond: iteration 0, seed
d(loss)/d(D) = 1. -/
def pC2 : DerivativeCalculationParams :=
  { calc_derivative_iteration := 0, output_nodes_loss_fn_derivative := [("D", 1)] }

/-- A sigmoid node `sg` with one wired input `p` (weight 4), cached
activation 1/2 and cached dloss 2. -/
def dSg3 : NodeData :=
  { kind := .sigmoidNode, inputs := [("p", 4)], outputs := [],
    activation := 1/2,
    training_state := { calc_derivative_iteration := 0, dloss := 2 } }

/-- Graph for the sigmoid weight-update claim. -/
def gC3 : Graph :=
  [("p", { kind := .inputNode 3, inputs := [], outputs := ["sg"],
           activation := 0, training_state := TrainingState.default }),
   ("sg", dSg3)]

/-- A fresh sum node `s1` (for the illegal-wiring claim). -/
def dS4 : NodeData :=
  { kind := .sumNode, inputs := [], outputs := [],
    activation := 0, training_state := TrainingState.default }

/-- A fresh input node `i1` with value 1. -/
def dI4 : NodeData :=
  { kind := .inputNode 1, inputs := [], outputs := [],
    activation := 0, training_state := TrainingState.default }

/-- Graph for the illegal-wiring claim: a sum node and an input node. -/
def gC4 : Graph := [("s1", dS4), ("i1", dI4)]

/-- A fresh input node `p` with value 1 (for the re-wiring claim). -/
def dP5 : NodeData :=
  { kind := .inputNode 1, inputs := [], outputs := [],
    activation := 0, training_state := TrainingState.default }

/-- A fresh sum node `c` (for the re-wiring claim). -/
def dC5 : NodeData :=
  { kind := .sumNode, inputs := [], outputs := [],
    activation := 0, training_state := TrainingState.default }

/-- Graph for the re-wiring claim: producer `p` and consumer `c`. -/
def gC5 : Graph := [("p", dP5), ("c", dC5)]

/-- A sum node `s` with one input edge `p` at weight 10 and cached
dloss 2 (for the sum weight-update claim). -/
def dS6 : NodeData :=
  { kind := .sumNode, inputs := [("p", 10)], outputs := [],
    activation := 0,
    training_state := { calc_derivative_iteration := 0, dloss := 2 } }

/-- Graph for the sum weight-update claim: input `p` (value 3, so
`get_last_calc_activation` is 3) feeding `s`. -/
def gC6 : Graph :=
  [("p", { kind := .inputNode 3, inputs := [], outputs := ["s"],
           activation := 0, training_state := TrainingState.default }),
   ("s", dS6)]

/-- A terminal sum node `t` with stale dloss 7 (for the dangling-terminal
claim). -/
def dT7 : NodeData :=
  { kind := .sumNode, inputs := [], outputs := [],
    activation := 0,
    training_state := { calc_derivative_iteration := -1, dloss := 7 } }

/-- Graph for the dangling-terminal claim. -/
def gC7 : Graph := [("t", dT7)]

/-- Parameters with iteration 0 and empty seed (no entry for `t`). -/
def pC7a : DerivativeCalculationParams :=
  { calc_derivative_iteration := 0, output_nodes_loss_fn_derivative := [] }

/-- Parameters with iteration 0 seeding d(loss)/d(t) = 4. -/
def pC7b : DerivativeCalculationParams :=
  { calc_derivative_iteration := 0, output_nodes_loss_fn_derivative := [("t", 4)] }

/-- A sum node `s` with inputs `a` at weight 1/2 and `b` at weight 1
(for the sum forward claim). -/
def dS8 : NodeData :=
  { kind := .sumNode, inputs := [("a", 1/2), ("b", 1)], outputs := [],
    activation := 0, training_state := TrainingState.default }

/-- Graph for the sum forward claim: inputs `a = 2.0` and `b = 4.0`. -/
def gC8 : Graph :=
  [("a", { kind := .inputNode 2, inputs := [], outputs := ["s"],
           activation := 0, training_state := TrainingState.default }),
   ("b", { kind := .inputNode 4, inputs := [], outputs := ["s"],
           activation := 0, training_state := TrainingState.default }),
   ("s", dS8)]

/-- A previously registered node `n` (for the duplicate-name claim). -/
def oldN : NodeData :=
  { kind := .inputNode 1, inputs := [], outputs := [],
    activation := 0, training_state := TrainingState.default }

/-- A second node constructed under the same name `n`. -/
def newN : NodeData :=
  { kind := .inputNode 2, inputs := [], outputs := [],
    activation := 0, training_state := TrainingState.default }

/-- Registry that already holds `n`. -/
def rC10 : Graph := [("n", oldN)]

/-! Helper lemmas about the association-list primitives. -/

theorem lookupAssoc_insertAssoc_self {α : Type} (m : List (String × α))
    (k : String) (v : α) : lookupAssoc (insertAssoc m k v) k = some v := by
  induction m with
  | nil => simp [insertAssoc, lookupAssoc]
  | cons hd tl ih =>
    obtain ⟨k', v'⟩ := hd
    by_cases h : k' = k
    · subst h
      simp [insertAssoc, lookupAssoc]
    · simp [insertAssoc, lookupAssoc, h, ih]

theorem lookupAssoc_insertAssoc_ne {α : Type} (m : List (String × α))
    (k k' : String) (v : α) (h : k ≠ k') :
    lookupAssoc (insertAssoc m k v) k' = lookupAssoc m k' := by
  induction m with
  | nil => simp [insertAssoc, lookupAssoc, h]
  | cons hd tl ih =>
    obtain ⟨k0, v0⟩ := hd
    by_cases h0 : k0 = k
    · subst h0
      simp [insertAssoc, lookupAssoc, h]
    · simp [insertAssoc, lookupAssoc, h0, ih]

theorem insertAssoc_insertAssoc {α : Type} (m : List (String × α))
    (k : String) (v v' : α) :
    insertAssoc (insertAssoc m k v) k v' = insertAssoc m k v' := by
  induction m with
  | nil => simp [insertAssoc]
  | cons hd tl ih =>
    obtain ⟨k0, v0⟩ := hd
    by_cases h0 : k0 = k
    · subst h0
      simp [insertAssoc]
    · simp [insertAssoc, h0, ih]

theorem mem_keys_insertAssoc {α : Type} (m : List (String × α))
    (k a : String) (v : α) :
    a ∈ (insertAssoc m k v).map Prod.fst → a ∈ m.map Prod.fst ∨ a = k := by
  induction m with
  | nil =>
    intro h
    simp only [insertAssoc, List.map_cons, List.map_nil,
      List.mem_singleton] at h
    exact Or.inr h
  | cons hd tl ih =>
    obtain ⟨k0, v0⟩ := hd
    by_cases h0 : k0 = k
    · subst h0
      intro h
      simp only [insertAssoc, eq_self_iff_true, if_true, List.map_cons,
        List.mem_cons] at h
      rcases h with h | h
      · exact Or.inr h
      · exact Or.inl (List.mem_cons_of_mem _ h)
    · intro h
      simp only [insertAssoc, if_neg h0, List.map_cons, List.mem_cons] at h
      rcases h with h | h
      · exact Or.inl (by simp only [List.map_cons, List.mem_cons]; exact Or.inl h)
      · rcases ih h with h' | h'
        · exact Or.inl (List.mem_cons_of_mem _ h')
        · exact Or.inr h'

theorem keys_nodup_insertAssoc {α : Type} (m : List (String × α))
    (k : String) (v : α) (h : (m.map Prod.fst).Nodup) :
    ((insertAssoc m k v).map Prod.fst).Nodup := by
  induction m with
  | nil => simp [insertAssoc]
  | cons hd tl ih =>
    obtain ⟨k0, v0⟩ := hd
    simp only [List.map_cons, List.nodup_cons] at h
    by_cases h0 : k0 = k
    · subst h0
      simp only [insertAssoc, eq_self_iff_true, if_true, List.map_cons,
        List.nodup_cons]
      exact h
    · simp only [insertAssoc, if_neg h0, List.map_cons, List.nodup_cons]
      refine ⟨fun hmem => ?_, ih h.2⟩
      rcases mem_keys_insertAssoc tl k k0 v hmem with h' | h'
      · exact h.1 h'
      · exact h0 h'

theorem lookupNode_setNode_self (g : Graph) (n : String) (d : NodeData) :
    lookupNode (setNode g n d) n = some d :=
  lookupAssoc_insertAssoc_self g n d

theorem lookupNode_setNode_ne (g : Graph) (n m : String) (d : NodeData)
    (h : n ≠ m) : lookupNode (setNode g n d) m = lookupNode g m :=
  lookupAssoc_insertAssoc_ne g n m d h

theorem updatedInputs_keys (g : Graph) (step f : ℚ) :
    ∀ (l l' : List (String × ℚ)), updatedInputs g step f l = some l' →
    l'.map Prod.fst = l.map Prod.fst := by
  intro l
  induction l with
  | nil =>
    intro l' h
    simp only [updatedInputs, Option.some.injEq] at h
    subst h
    rfl
  | cons hd tl ih =>
    obtain ⟨k, w⟩ := hd
    intro l' h
    cases hk : lookupNode g k with
    | none =>
      simp only [updatedInputs, hk] at h
      exact Option.noConfusion h
    | some p =>
      cases hu : updatedInputs g step f tl with
      | none =>
        simp only [updatedInputs, hk, hu] at h
        exact Option.noConfusion h
      | some rest' =>
        simp only [updatedInputs, hk, hu, Option.some.injEq] at h
        subst h
        simp only [List.map_cons, ih rest' hu]

theorem updatedInputs_mem (g : Graph) (step f : ℚ) :
    ∀ (l l' : List (String × ℚ)), updatedInputs g step f l = some l' →
    ∀ (k : String) (w : ℚ) (p : NodeData), (k, w) ∈ l →
      lookupNode g k = some p →
      (k, w - step * (f * get_last_calc_activation p)) ∈ l' := by
  intro l
  induction l with
  | nil =>
    intro l' h k w p hmem
    exact absurd hmem (List.not_mem_nil _)
  | cons hd tl ih =>
    obtain ⟨k0, w0⟩ := hd
    intro l' h k w p hmem hp
    cases hk : lookupNode g k0 with
    | none =>
      simp only [updatedInputs, hk] at h
      exact Option.noConfusion h
    | some p0 =>
      cases hu : updatedInputs g step f tl with
      | none =>
        simp only [updatedInputs, hk, hu] at h
        exact Option.noConfusion h
      | some rest' =>
        simp only [updatedInputs, hk, hu, Option.some.injEq] at h
        subst h
        rcases List.mem_cons.mp hmem with hhd | htl
        · cases hhd
          have hpp : p0 = p := Option.some.inj (hk.symm.trans hp)
          cases hpp
          exact List.mem_cons_self _ _
        · exact List.mem_cons_of_mem _ (ih rest' hu k w p htl hp)

theorem calc_go_input_sources (expFn : ℚ → ℚ)
    (l : List (String × ℚ)) (vals : List ℚ) (g : Graph)
    (h : List.Forall₂ (fun pw v => ∃ rec, lookupNode g pw.1 = some rec ∧
          rec.kind = NodeKind.inputNode v) l vals) :
    calc_activation_go expFn (l.length + 1) (Sum.inr l) g
      = some (weightedTotal l vals, g) := by
  induction h with
  | nil => simp [calc_activation_go, weightedTotal]
  | @cons pw v tl vtl h1 h2 ih =>
    obtain ⟨p, w⟩ := pw
    obtain ⟨rec, hrec, hkind⟩ := h1
    simp only [List.length_cons, calc_activation_go, hrec, hkind, ih,
      weightedTotal]

/-- C9: `Network::update_weights` (network.rs:80-82) has an empty body, so
calling it changes nothing: the network object and every node's record
(edge weights, cached activation, training state) are exactly as before. -/
theorem c9_network_update_weights_noop (net : Network) (g : Graph) :
    Network.update_weights net g = (net, g)
    ∧ ∀ name, lookupNode (Network.update_weights net g).2 name = lookupNode g name :=
  ⟨rfl, fun _ => rfl⟩

/-- C10: `register_node` (node.rs:17-22) inserts into the registry before
raising the duplicate-name panic, so on a duplicate the registry already
maps the name to the new node, not the previously registered one:
construction failure is not atomic with respect to the registry. -/
theorem c10_register_duplicate (nodes : Graph) (name : String)
    (old nw : NodeData) (h : lookupAssoc nodes name = some old) :
    register_node name nw nodes = (insertAssoc nodes name nw, true)
    ∧ lookupAssoc (register_node name nw nodes).1 name = some nw
    ∧ (nw ≠ old → lookupAssoc (register_node name nw nodes).1 name ≠ some old) := by
  have h1 : register_node name nw nodes = (insertAssoc nodes name nw, true) := by
    simp [register_node, h]
  refine ⟨h1, ?_, ?_⟩
  · rw [h1]
    exact lookupAssoc_insertAssoc_self nodes name nw
  · intro hne
    rw [h1]
    simp only [lookupAssoc_insertAssoc_self nodes name nw, ne_eq,
      Option.some.injEq]
    exact fun hc => hne hc

/-- Witness for C10 at a concrete registry: `n` is already registered as
`oldN`; registering `newN` under the same name panics, yet afterwards the
registry maps `n` to `newN`. -/
theorem c10_witness :
    register_node "n" newN rC10 = (insertAssoc rC10 "n" newN, true)
    ∧ lookupAssoc (register_node "n" newN rC10).1 "n" = some newN :=
  ⟨(c10_register_duplicate rC10 "n" oldN newN rfl).1,
   (c10_register_duplicate rC10 "n" oldN newN rfl).2.1⟩

/-- C3: `SigmoidNode::update_weights` (node.rs:603-605) is
`unimplemented!()`: invoked on a sigmoid node with cached dloss and a wired
input edge it panics instead of applying the
`weight - step * dloss * a*(1-a) * producer_activation` update the claim
(and spec section 4.5) describes.  The embedding models the panic as
`none`. -/
theorem c3_sigmoid_update_unimplemented :
    update_weights (1/10) "sg" gC3 = none := rfl

/-- C4 counterexample: `connect(x, i)` with `i` an Input node does panic,
but it does NOT leave the graph unmodified: `x`'s outputs list already
contains `i` after the failed call (it was empty before). -/
theorem c4_counterexample :
    (connect 0 "s1" "i1" gC4).2 = true
    ∧ (lookupNode (connect 0 "s1" "i1" gC4).1 "s1").map NodeData.outputs
        = some ["i1"]
    ∧ (lookupNode gC4 "s1").map NodeData.outputs = some [] :=
  ⟨rfl, rfl, rfl⟩

/-- C4 amended: `connect(x, i)` with `i` an Input-kind node fails with the
`InputNode does not have an input!` panic (the spec's
`UnsupportedOperationError`) and leaves `i`'s own state unchanged, but the
graph is modified before the failure: `x`'s outputs list has `i` appended
by the already-completed `add_output_node` step. -/
theorem c4_amended (g : Graph) (x i : String) (dx di : NodeData)
    (v rng_w : ℚ) (hx : lookupNode g x = some dx)
    (hi : lookupNode g i = some di) (hk : di.kind = NodeKind.inputNode v)
    (hne : x ≠ i) :
    connect rng_w x i g
      = (setNode g x { dx with outputs := dx.outputs ++ [i] }, true)
    ∧ lookupNode (connect rng_w x i g).1 i = some di := by
  have e1 : add_output_node x i g
      = setNode g x { dx with outputs := dx.outputs ++ [i] } := by
    simp only [add_output_node, hx]
  have e2 : lookupNode (setNode g x { dx with outputs := dx.outputs ++ [i] }) i
      = some di := by
    rw [lookupNode_setNode_ne _ _ _ _ hne]
    exact hi
  have e3 : add_input_node rng_w i x
      (setNode g x { dx with outputs := dx.outputs ++ [i] }) = none := by
    simp only [add_input_node, e2, hk]
  constructor
  · simp only [connect, e1, e3]
  · simp only [connect, e1, e3]
    exact e2

/-- Witness for C4 at a concrete graph: wiring the sum node `s1` into the
input node `i1` panics, yet `s1`'s outputs list has gained `i1`. -/
theorem c4_witness :
    connect 0 "s1" "i1" gC4
      = (setNode gC4 "s1" { dS4 with outputs := dS4.outputs ++ ["i1"] }, true)
    ∧ lookupNode (connect 0 "s1" "i1" gC4).1 "i1" = some dI4 :=
  c4_amended gC4 "s1" "i1" dS4 dI4 1 0 rfl rfl rfl (by decide)

/-- C8: for a Sum node whose wired producers are Input-kind nodes,
`calc_activation` (node.rs:437-447) returns the sum over its `inputs` of
`producer.calc_activation() * weight` and stores that value in the node's
cached `activation` field before returning (and touches nothing else in the
graph). -/
theorem c8_sum_forward (expFn : ℚ → ℚ) (g : Graph) (name : String)
    (d : NodeData) (vals : List ℚ)
    (h : lookupNode g name = some d) (hk : d.kind = NodeKind.sumNode)
    (hf : List.Forall₂ (fun pw v => ∃ rec, lookupNode g pw.1 = some rec ∧
          rec.kind = NodeKind.inputNode v) d.inputs vals) :
    calc_activation expFn (d.inputs.length + 1 + 1) name g
      = some (weightedTotal d.inputs vals,
              setNode g name { d with activation := weightedTotal d.inputs vals }) := by
  simp only [calc_activation, calc_activation_go, h, hk,
    calc_go_input_sources expFn d.inputs vals g hf]

/-- Witness for C8: inputs `a = 2.0` at weight 1/2 and `b = 4.0` at
weight 1 give activation 5.0, cached on the node. -/
theorem c8_witness :
    calc_activation id (dS8.inputs.length + 1 + 1) "s" gC8
      = some (weightedTotal dS8.inputs [2, 4],
              setNode gC8 "s" { dS8 with activation := weightedTotal dS8.inputs [2, 4] })
    ∧ weightedTotal dS8.inputs [2, 4] = 5 := by
  constructor
  · exact c8_sum_forward id gC8 "s" dS8 [2, 4] rfl rfl
      (List.Forall₂.cons ⟨_, rfl, rfl⟩
        (List.Forall₂.cons ⟨_, rfl, rfl⟩ List.Forall₂.nil))
  · norm_num [dS8, weightedTotal]

/-- C6: `SumNode::update_weights` (node.rs:472-510) replaces each wired
input edge's weight by `weight - step_size * (dloss * producer_activation)`
and changes nothing else: the node keeps its kind, outputs, cached
activation and training state (only the `inputs` weights are rewritten, and
the key set is preserved). -/
theorem c6_sum_update (g : Graph) (name : String) (d : NodeData)
    (step : ℚ) (newInputs : List (String × ℚ))
    (h : lookupNode g name = some d) (hk : d.kind = NodeKind.sumNode)
    (hu : updatedInputs g step (d.training_state.dloss * 1) d.inputs
        = some newInputs) :
    update_weights step name g
      = some (setNode g name { d with inputs := newInputs })
    ∧ newInputs.map Prod.fst = d.inputs.map Prod.fst
    ∧ ∀ k w p, (k, w) ∈ d.inputs → lookupNode g k = some p →
        (k, w - step * (d.training_state.dloss * get_last_calc_activation p))
          ∈ newInputs := by
  refine ⟨?_, updatedInputs_keys g step _ d.inputs newInputs hu, ?_⟩
  · simp only [update_weights, h, hk, hu]
  · intro k w p hmem hp
    have hres := updatedInputs_mem g step (d.training_state.dloss * 1)
      d.inputs newInputs hu k w p hmem hp
    simpa [mul_one] using hres

/-- Witness for C6: sum node `s` with dloss = 2.0, one input `p` with
activation 3.0 and weight 10, step size 0.1: the weight becomes
`10 - 0.1 * (2 * 1 * 3)`, i.e. `old_weight - 0.6`, and only the `inputs`
entry of `s` changes. -/
theorem c6_witness :
    update_weights (1/10) "s" gC6
      = some (setNode gC6 "s" { dS6 with inputs := [("p", 10 - 1/10 * (2 * 1 * 3))] })
    ∧ (10 : ℚ) - 1/10 * (2 * 1 * 3) = 10 - 6/10 := by
  constructor
  · exact (c6_sum_update gC6 "s" dS6 (1/10) [("p", 10 - 1/10 * (2 * 1 * 3))]
      rfl rfl rfl).1
  · norm_num

/-- C7: when `calc_activation_derivative` (node.rs:107-148) reaches a node
with no output nodes in a fresh iteration, it does not fail: if the node's
id is absent from the seed mapping it logs the WARNING (the returned
warning list is `[name]`) and sets and returns `dloss = 0.0`; if the id is
seeded, `dloss` is set to exactly the seeded value (and no warning is
logged). -/
theorem c7_dangling_terminal (params : DerivativeCalculationParams)
    (fuel : Nat) (name : String) (g : Graph) (d : NodeData)
    (h : lookupNode g name = some d) (ho : d.outputs = [])
    (hi : d.training_state.calc_derivative_iteration
        ≠ params.calc_derivative_iteration) :
    (lookupAssoc params.output_nodes_loss_fn_derivative name = none →
      calc_activation_derivative params (fuel + 1) name g
        = some (0, setNode g name
            { d with training_state := { d.training_state with dloss := 0 } },
            [name]))
    ∧ ∀ v, lookupAssoc params.output_nodes_loss_fn_derivative name = some v →
      calc_activation_derivative params (fuel + 1) name g
        = some (v, setNode g name
            { d with training_state := { d.training_state with dloss := v } },
            []) := by
  constructor
  · intro hseed
    simp only [calc_activation_derivative, calcDeriv, h, if_pos hi, ho,
      List.length_nil, ne_eq, not_true_eq_false, if_false, hseed]
  · intro v hseed
    simp only [calc_activation_derivative, calcDeriv, h, if_pos hi, ho,
      List.length_nil, ne_eq, not_true_eq_false, if_false, hseed,
      setNode, insertAssoc_insertAssoc]

/-- Witness for C7 at a one-node graph: terminal `t` (stale dloss 7) under
an empty seed returns 0 with a warning for `t`; under a seed `t ↦ 4` it
returns 4 with no warning. -/
theorem c7_witness :
    calc_activation_derivative pC7a 3 "t" gC7
      = some (0, setNode gC7 "t"
          { dT7 with training_state := { dT7.training_state with dloss := 0 } },
          ["t"])
    ∧ calc_activation_derivative pC7b 3 "t" gC7
      = some (4, setNode gC7 "t"
          { dT7 with training_state := { dT7.training_state with dloss := 4 } },
          []) :=
  ⟨(c7_dangling_terminal pC7a 2 "t" gC7 dT7 rfl rfl (by decide)).1 rfl,
   (c7_dangling_terminal pC7b 2 "t" gC7 dT7 rfl rfl (by decide)).2 4 rfl⟩

/-- C1 (refuting evaluation): `calc_activation_derivative` never writes
`training_state.calc_derivative_iteration` (no assignment exists anywhere
in node.rs), contradicting the claim, the spec's step
`mark node.training_state.last_derivative_iteration = seed.iteration`, and
the function's own doc comment (node.rs:102-106).  On the chain `P → Q`
(with `Q` terminal and unseeded, iteration token 0) one call of the
function on `P` leaves the graph exactly as it was — in particular `P`'s
memo token is still the initial -1, not the token 0 — so the second
identical call re-enters the full recursive accumulation and re-emits `Q`'s
missing-seed warning instead of taking the memo-hit path. -/
theorem c1_iteration_never_marked :
    calc_activation_derivative pC1 5 "P" gC1 = some (0, gC1, ["Q"])
    ∧ (lookupNode gC1 "P").map
        (fun d => d.training_state.calc_derivative_iteration) = some (-1)
    ∧ pC1.calc_derivative_iteration = 0 := by
  refine ⟨?_, rfl, rfl⟩
  simp only [calc_activation_derivative, calcDeriv, calc_derivative_against,
    get_last_calc_activation, lookupNode, lookupAssoc, setNode, insertAssoc,
    gC1, dP1, dQ1, pC1, TrainingState.default, String.reduceEq, reduceIte,
    Option.map, List.length, List.append, ne_eq, Nat.reduceEqDiff,
    Nat.reduceAdd, Int.reduceNe, Int.reduceEq, Int.reduceNeg,
    not_false_eq_true, not_true_eq_false]
  norm_num

/-- C2: on the diamond DAG A→{B,C}→D with weights A→B=2, A→C=3, B→D=1,
C→D=1 and seed d(loss)/d(D)=1, `calc_activation_derivative` invoked on `A`
returns 5 and stores dloss = 5 in `A`'s training state (the multivariate
chain-rule sum over both paths). -/
theorem c2_diamond_dag_derivative :
    (calc_activation_derivative pC2 10 "A" gC2).map (fun r => r.1) = some 5
    ∧ (calc_activation_derivative pC2 10 "A" gC2).map
        (fun r => (lookupNode r.2.1 "A").map
          (fun d => d.training_state.dloss)) = some (some 5) := by
  constructor
  · simp only [calc_activation_derivative, calcDeriv, calc_derivative_against,
      get_last_calc_activation, lookupNode, lookupAssoc, setNode, insertAssoc,
      gC2, pC2, TrainingState.default, String.reduceEq, reduceIte,
      Option.map, List.length, List.append, ne_eq, Nat.reduceEqDiff,
      Nat.reduceAdd, Int.reduceNe, Int.reduceEq, Int.reduceNeg,
      not_false_eq_true, not_true_eq_false]
    norm_num
  · simp only [calc_activation_derivative, calcDeriv, calc_derivative_against,
      get_last_calc_activation, lookupNode, lookupAssoc, setNode, insertAssoc,
      gC2, pC2, TrainingState.default, String.reduceEq, reduceIte,
      Option.map, List.length, List.append, ne_eq, Nat.reduceEqDiff,
      Nat.reduceAdd, Int.reduceNe, Int.reduceEq, Int.reduceNeg,
      not_false_eq_true, not_true_eq_false]
    norm_num

/-- C5 counterexample: re-connecting the same producer `p` to the same
consumer `c` does overwrite the forward weight (the `inputs` map holds `p`
once, at the new weight 2), but the producer's `outputs` back-links then
contain `c` twice — the edge is not represented exactly once in each
direction. -/
theorem c5_counterexample :
    (lookupNode ((connect_init "p" "c" 2 (connect_init "p" "c" 1 gC5).1).1) "p").map
        NodeData.outputs = some ["c", "c"]
    ∧ (lookupNode ((connect_init "p" "c" 2 (connect_init "p" "c" 1 gC5).1).1) "c").map
        NodeData.inputs = some [("p", 2)] :=
  ⟨rfl, rfl⟩

theorem add_output_node_eq (name out : String) (g : Graph) (d : NodeData)
    (h : lookupNode g name = some d) :
    add_output_node name out g
      = setNode g name { d with outputs := d.outputs ++ [out] } := by
  simp only [add_output_node, h]

theorem add_input_node_init_sum (name input : String) (weight : ℚ)
    (g : Graph) (d : NodeData) (h : lookupNode g name = some d)
    (hk : d.kind = NodeKind.sumNode) :
    add_input_node_init name input weight g
      = some (setNode g name { d with inputs := insertAssoc d.inputs input weight }) := by
  simp only [add_input_node_init, h, hk]

theorem add_input_node_sum (rng_w : ℚ) (name input : String)
    (g : Graph) (d : NodeData) (h : lookupNode g name = some d)
    (hk : d.kind = NodeKind.sumNode) :
    add_input_node rng_w name input g
      = some (setNode g name { d with inputs := insertAssoc d.inputs input rng_w }) := by
  simp only [add_input_node, add_input_node_init, h, hk]

/-- C5 amended: `connect`/`connect_init` keep the forward direction exact â
re-connecting the same producer overwrites the stored weight in the
consumer's `inputs` map without creating a duplicate forward edge (key-set
nodup is preserved) â but the backward direction is NOT kept in sync:
`add_output_node` appends unconditionally, so after a re-connect the
producer's `outputs` back-links contain the consumer once per connect call
(here twice). -/
theorem c5_amended (g : Graph) (p c : String) (dp dc : NodeData)
    (w1 w2 : ℚ) (hp : lookupNode g p = some dp)
    (hc : lookupNode g c = some dc) (hck : dc.kind = NodeKind.sumNode)
    (hne : p ≠ c) :
    (connect_init p c w1 g).2 = false
    ∧ (connect w2 p c (connect_init p c w1 g).1).2 = false
    ∧ lookupNode (connect w2 p c (connect_init p c w1 g).1).1 c
        = some { dc with inputs := insertAssoc dc.inputs p w2 }
    ∧ lookupAssoc (insertAssoc dc.inputs p w2) p = some w2
    ∧ ((dc.inputs.map Prod.fst).Nodup →
        ((insertAssoc dc.inputs p w2).map Prod.fst).Nodup)
    ∧ lookupNode (connect w2 p c (connect_init p c w1 g).1).1 p
        = some { dp with outputs := dp.outputs ++ [c, c] } := by
  have hcp : c ≠ p := fun hx => hne hx.symm
  have e1 := add_output_node_eq p c g dp hp
  have l1c : lookupNode (setNode g p { dp with outputs := dp.outputs ++ [c] }) c
      = some dc := by
    rw [lookupNode_setNode_ne _ _ _ _ hne]
    exact hc
  have e2 := add_input_node_init_sum c p w1
    (setNode g p { dp with outputs := dp.outputs ++ [c] }) dc l1c hck
  have eg1 : connect_init p c w1 g
      = (setNode (setNode g p { dp with outputs := dp.outputs ++ [c] }) c
          { dc with inputs := insertAssoc dc.inputs p w1 }, false) := by
    simp only [connect_init, e1, e2]
  have l2p : lookupNode (setNode (setNode g p
        { dp with outputs := dp.outputs ++ [c] }) c
        { dc with inputs := insertAssoc dc.inputs p w1 }) p
      = some { dp with outputs := dp.outputs ++ [c] } := by
    rw [lookupNode_setNode_ne _ _ _ _ hcp, lookupNode_setNode_self]
  have e3 := add_output_node_eq p c (setNode (setNode g p
      { dp with outputs := dp.outputs ++ [c] }) c
      { dc with inputs := insertAssoc dc.inputs p w1 })
      { dp with outputs := dp.outputs ++ [c] } l2p
  have l3c : lookupNode (setNode (setNode (setNode g p
        { dp with outputs := dp.outputs ++ [c] }) c
        { dc with inputs := insertAssoc dc.inputs p w1 }) p
        { dp with outputs := (dp.outputs ++ [c]) ++ [c] }) c
      = some { dc with inputs := insertAssoc dc.inputs p w1 } := by
    rw [lookupNode_setNode_ne _ _ _ _ hne, lookupNode_setNode_self]
  have e4 := add_input_node_sum w2 c p (setNode (setNode (setNode g p
      { dp with outputs := dp.outputs ++ [c] }) c
      { dc with inputs := insertAssoc dc.inputs p w1 }) p
      { dp with outputs := (dp.outputs ++ [c]) ++ [c] })
      { dc with inputs := insertAssoc dc.inputs p w1 } l3c hck
  rw [insertAssoc_insertAssoc] at e4
  have eg2 : connect w2 p c (connect_init p c w1 g).1
      = (setNode (setNode (setNode (setNode g p
          { dp with outputs := dp.outputs ++ [c] }) c
          { dc with inputs := insertAssoc dc.inputs p w1 }) p
          { dp with outputs := (dp.outputs ++ [c]) ++ [c] }) c
          { dc with inputs := insertAssoc dc.inputs p w2 }, false) := by
    rw [eg1]
    simp only [connect, e3, e4]
  refine ⟨by rw [eg1], by rw [eg2], ?_, ?_, ?_, ?_⟩
  · rw [eg2]
    exact lookupNode_setNode_self _ _ _
  · exact lookupAssoc_insertAssoc_self dc.inputs p w2
  · exact fun hnd => keys_nodup_insertAssoc dc.inputs p w2 hnd
  · rw [eg2]
    have hl := lookupNode_setNode_ne (setNode (setNode (setNode g p
        { dp with outputs := dp.outputs ++ [c] }) c
        { dc with inputs := insertAssoc dc.inputs p w1 }) p
        { dp with outputs := (dp.outputs ++ [c]) ++ [c] })
        c p { dc with inputs := insertAssoc dc.inputs p w2 } hcp
    rw [hl, lookupNode_setNode_self]
    simp [List.append_assoc]

/-- Witness for C5 at a concrete graph: wiring `p → c` at weight 1, then
re-wiring at weight 2 (through `connect`, with 2 as the drawn random
weight), leaves `c.inputs = insertAssoc dC5.inputs "p" 2` (one entry,
weight 2) but `p.outputs = ["c", "c"]`. -/
theorem c5_witness :
    (connect_init "p" "c" 1 gC5).2 = false
    ∧ (connect 2 "p" "c" (connect_init "p" "c" 1 gC5).1).2 = false
    ∧ lookupNode (connect 2 "p" "c" (connect_init "p" "c" 1 gC5).1).1 "c"
        = some { dC5 with inputs := insertAssoc dC5.inputs "p" 2 }
    ∧ lookupAssoc (insertAssoc dC5.inputs "p" 2) "p" = some 2
    ∧ ((dC5.inputs.map Prod.fst).Nodup →
        ((insertAssoc dC5.inputs "p" 2).map Prod.fst).Nodup)
    ∧ lookupNode (connect 2 "p" "c" (connect_init "p" "c" 1 gC5).1).1 "p"
        = some { dP5 with outputs := dP5.outputs ++ ["c", "c"] } :=
  c5_amended gC5 "p" "c" dP5 dC5 1 2 rfl rfl rfl (by decide)
